import Mathlib

/-!
Verification of the deck-legality checker: a shallow embedding of the
card-manager resolution and legality functions (src/CardManager/CardManager.ts),
the deck-legality HTTP handler core (src/routes/_app.tsx, the typed variant),
the deck-list parser, and the commander-bracket classifier
(src/routes/api/commander-bracket.ts), together with theorems about them.

JavaScript strings are modelled as Lean `String`; the JS string operations the
source uses (`toLowerCase`, `includes`, `split`, `trim`, `parseInt`) are
re-implemented below over character lists so that every definition reduces in
the kernel.  JS `Set`/`Map` values are modelled as insertion-ordered lists
without duplicate keys, matching `Set.add`/`Map.set`/`Array.from` semantics.
-/

namespace LegalityChecker

/-! ## JS string primitives -/

/-- JS `String.prototype.toLowerCase` (ASCII range; the names and type lines
involved only need ASCII case mapping). -/
def jsToLower (s : String) : String :=
  String.mk (s.data.map Char.toLower)

/-- Whether `pat` is a prefix of `cs`. -/
def isPrefixList : List Char → List Char → Bool
  | [], _ => true
  | _ :: _, [] => false
  | p :: ps, c :: cs => p == c && isPrefixList ps cs

/-- Whether `pat` occurs inside `cs` (substring search over characters). -/
def containsSub (cs pat : List Char) : Bool :=
  match cs with
  | [] => isPrefixList pat []
  | _ :: rest => isPrefixList pat cs || containsSub rest pat

/-- JS `String.prototype.includes(pat)`. -/
def hasSubstr (s pat : String) : Bool :=
  containsSub s.data pat.data

/-- Split a character list on a single separator character; always returns a
non-empty list of pieces (JS `String.prototype.split(sep)` for a one-character
separator). -/
def splitOnChar (sep : Char) : List Char → List (List Char)
  | [] => [[]]
  | c :: rest =>
    match splitOnChar sep rest with
    | [] => [[c]]
    | h :: t => if c == sep then [] :: h :: t else (c :: h) :: t

/-- JS `s.split(sep)` for a one-character separator string. -/
def jsSplit (s : String) (sep : Char) : List String :=
  (splitOnChar sep s.data).map String.mk

/-- JS `String.prototype.trim` (the source only feeds it ASCII whitespace). -/
def jsTrim (s : String) : String :=
  String.mk (((s.data.dropWhile Char.isWhitespace).reverse.dropWhile
    Char.isWhitespace).reverse)

/-- JS `array.join(" ")`. -/
def joinSpace : List String → String
  | [] => ""
  | [x] => x
  | x :: y :: rest => x ++ " " ++ joinSpace (y :: rest)

/-- The longest leading run of decimal digits. -/
def digitsPrefix : List Char → List Char
  | [] => []
  | c :: cs => if c.isDigit then c :: digitsPrefix cs else []

/-- Decimal value of a digit list. -/
def digitsVal (ds : List Char) : Nat :=
  ds.foldl (fun acc c => acc * 10 + (c.toNat - 48)) 0

/-- JS `parseInt(s, 10)`: skip leading whitespace, an optional sign, then the
longest digit prefix; `none` models `NaN` (no digit found). -/
def parseIntJS (s : String) : Option Int :=
  match s.data.dropWhile Char.isWhitespace with
  | '-' :: rest =>
    let ds := digitsPrefix rest
    if ds.isEmpty then none else some (-(Int.ofNat (digitsVal ds)))
  | '+' :: rest =>
    let ds := digitsPrefix rest
    if ds.isEmpty then none else some (Int.ofNat (digitsVal ds))
  | cs =>
    let ds := digitsPrefix cs
    if ds.isEmpty then none else some (Int.ofNat (digitsVal ds))

/-! ## Data model

`Card` embeds the fields of a stored Scryfall card record that the checker
reads: `name`, `type_line`, `color_identity`, `legalities.pioneer`, `layout`
and the face names of `card_faces`.  A record without a `card_faces` array is
modelled with `faces = []`: the source's `Array.isArray(c.card_faces) &&
c.card_faces.some(...)` test is false exactly when the face-name list is empty.
-/

structure Card where
  name : String
  typeLine : String
  colorIdentity : List String
  pioneer : String
  layout : String
  faces : List String
deriving DecidableEq, Inhabited, Repr

/-- One line of a deck list (source interface `DeckCard` / `Card`):
a quantity and a card name. -/
structure DeckEntry where
  quantity : Nat
  name : String
deriving DecidableEq, Inhabited, Repr

/-- A parsed deck list (source interface `DeckList`). -/
structure DeckList where
  mainDeck : List DeckEntry
  commander : DeckEntry
deriving DecidableEq, Inhabited, Repr

/-- The three static rule lists the card manager loads from CSV files. -/
structure Rules where
  bannedList : List String
  allowedList : List String
  singletonExceptions : List String
deriving DecidableEq, Inhabited, Repr

/-! ## CardManager (src/CardManager/CardManager.ts) -/

/-- `CardManager.isToken`: layout `token` or `double_faced_token`, or a type
line containing "token" case-insensitively. -/
def isToken (c : Card) : Bool :=
  c.layout == "token" || hasSubstr (jsToLower c.typeLine) "token" ||
    c.layout == "double_faced_token"

/-- `CardManager.findRealCard`: all records with the queried name; with several
matches prefer the first non-token, with one match use it unless it is a
token. -/
def findRealCard (cards : List Card) (cardName : String) : Option Card :=
  let matchingCards := cards.filter (fun c => c.name == cardName)
  if matchingCards.length > 1 then
    (matchingCards.filter (fun c => !isToken c)).head?
  else
    match matchingCards.head? with
    | some card => if !isToken card then some card else none
    | none => none

/-- `CardManager.isCardLegal`: legal iff on the allowed list, or
pioneer-legal and not on the banned list; an unresolved record is illegal. -/
def isCardLegal (r : Rules) (cardName : String) (cardData : Option Card) : Bool :=
  match cardData with
  | none => false
  | some c =>
    r.allowedList.contains cardName ||
      (c.pioneer == "legal" && !(r.bannedList.contains cardName))

/-- `CardManager.getCardWithLegality`: the resolved record with its `pioneer`
legality overwritten by the format's own `isCardLegal` verdict. -/
def getCardWithLegality (store : List Card) (r : Rules) (cardName : String) :
    Option Card :=
  match findRealCard store cardName with
  | none => none
  | some card =>
    some { card with
      pioneer := if isCardLegal r cardName (some card) then "legal" else "not_legal" }

/-- `CardManager.findDFCCard`: the first stored record one of whose face names
equals the queried name. -/
def findDFCCard (store : List Card) (cardName : String) : Option Card :=
  store.find? (fun c => c.faces.any (fun cf => cf == cardName))

/-- The resolution path of `CardManager.checkCardLegality`: a direct lookup,
then the double-faced-card fallback through the owning record's primary name
(skipped when the owning record is a token). -/
def resolveCard (store : List Card) (r : Rules) (cardName : String) : Option Card :=
  match getCardWithLegality store r cardName with
  | some cardData => some cardData
  | none =>
    match findDFCCard store cardName with
    | some dfc => if !isToken dfc then getCardWithLegality store r dfc.name else none
    | none => none

/-- `CardManager.checkCardLegality`: the `(legalCards, illegalCards)` deltas a
single deck entry contributes. -/
def checkCardLegality (store : List Card) (r : Rules) (cardName : String)
    (quantity : Nat) : List Card × List String :=
  match resolveCard store r cardName with
  | none => ([], [cardName])
  | some cardData =>
    if cardData.pioneer != "legal" then ([], [cardName])
    else (List.replicate quantity cardData, [])

/-- Result of `CardManager.testDecklist`. -/
structure CardValidationResult where
  legalCards : List Card
  illegalCards : List String
deriving DecidableEq, Inhabited, Repr

/-- `CardManager.testDecklist`: the commander is checked first, then every
main-deck entry, accumulating the legal copies and the illegal names. -/
def testDecklist (store : List Card) (r : Rules) (deck : DeckList) :
    CardValidationResult :=
  let entries := deck.commander :: deck.mainDeck
  { legalCards := entries.flatMap (fun e => (checkCardLegality store r e.name e.quantity).1)
    illegalCards := entries.flatMap (fun e => (checkCardLegality store r e.name e.quantity).2) }

/-- `CardManager.fetchCard` delegates to `getCardWithLegality`. -/
def fetchCard (store : List Card) (r : Rules) (cardName : String) : Option Card :=
  getCardWithLegality store r cardName

/-! ## Deck-list parser (`CardManager.parseDeckList`) -/

/-- Parse one deck-list line: split on single spaces, `parseInt` the first
token, reject a quantity below 1, rejoin the rest as the name.  Both the
commander line and the main-deck lines go through this exact sequence in the
source. -/
def parseLine (line : String) : Option DeckEntry :=
  let parts := jsSplit line ' '
  let quantityStr := parts.headD ""
  let cardName := parts.tail
  match parseIntJS quantityStr with
  | none => none
  | some quantity =>
    if quantity < 1 then none
    else some { quantity := quantity.toNat, name := joinSpace cardName }

/-- Parse the main-deck lines; any invalid line aborts the whole parse (the
source throws). -/
def parseMainDeck : List String → Option (List DeckEntry)
  | [] => some []
  | line :: rest =>
    match parseLine line with
    | none => none
    | some e =>
      match parseMainDeck rest with
      | none => none
      | some es => some (e :: es)

/-- `CardManager.parseDeckList`: split on newlines; the first line whose trim
is empty separates main deck from commander; the commander line (the next
line) is trimmed, the main-deck lines are not; failures (`throw` in the
source) are modelled as `none`. -/
def parseDeckList (deckList : String) : Option DeckList :=
  let lines := jsSplit deckList '\n'
  match lines.findIdx? (fun line => jsTrim line == "") with
  | none => none
  | some commanderIndex =>
    let mainDeckLines := lines.take commanderIndex
    let commanderLine := jsTrim (lines.getD (commanderIndex + 1) "")
    if commanderLine == "" then none
    else
      match parseLine commanderLine with
      | none => none
      | some commander =>
        match parseMainDeck mainDeckLines with
        | none => none
        | some mainDeck => some { mainDeck := mainDeck, commander := commander }

/-! ## Deck-legality handler (src/routes/_app.tsx, typed variant)

The handler core is embedded as a pure function of the card store, the rule
lists and the request's `(cards, commander)` pair.  The early returns of
`checkCommander` (commander missing, not a creature, not legendary) become the
`Except.error` branch carrying the JSON payload those responses serialize;
the full verdict becomes the `Except.ok` branch. -/

/-- The `BASIC_LANDS` set. -/
def basicLands : List String :=
  ["Plains", "Island", "Swamp", "Mountain", "Forest", "Wastes"]

/-- The `legalIssues` object of the verdict: `none` is the JSON `null` of a
passed sub-check. -/
structure LegalIssues where
  size : Option String
  commander : Option String
  commanderType : Option String
  colorIdentity : Option String
  singleton : Option String
  illegalCards : Option String
deriving DecidableEq, Inhabited, Repr

/-- The handler's full verdict (source interface `LegalityResponse`). -/
structure LegalityResponse where
  legal : Bool
  commander : String
  colorIdentity : List String
  deckSize : Nat
  requiredSize : Nat
  illegalCards : List String
  colorIdentityViolations : List String
  nonSingletonCards : List String
  legalIssues : LegalIssues
deriving DecidableEq, Inhabited, Repr

/-- The payload of an early `checkCommander` response: `legal: false`, the
commander name, an error message, and (for the type failures only) a
`legalIssues.commanderType` entry. -/
structure CommanderErrorResponse where
  legal : Bool
  commander : String
  error : String
  commanderType : Option String
deriving DecidableEq, Inhabited, Repr

/-- `checkCommander`: `some` an early error response when the commander is
missing, is not a creature, or is not legendary; `none` when it passes. -/
def checkCommander (commanderName : String) (commanderData : Option Card) :
    Option CommanderErrorResponse :=
  match commanderData with
  | none =>
    some { legal := false, commander := commanderName
           error := "Commander not found in database", commanderType := none }
  | some c =>
    if !hasSubstr (jsToLower c.typeLine) "creature" then
      some { legal := false, commander := commanderName
             error := "Commander must be a creature"
             commanderType := some "Commander must be a creature" }
    else if !hasSubstr (jsToLower c.typeLine) "legendary" then
      some { legal := false, commander := commanderName
             error := "Commander must be legendary"
             commanderType := some "Commander must be legendary" }
    else none

/-- A JS `Map<string, number>` as an insertion-ordered association list:
lookup (`Map.get`, with `|| 0` defaulting). -/
def lookupCount (counts : List (String × Nat)) (n : String) : Nat :=
  match counts.find? (fun p => p.1 == n) with
  | some p => p.2
  | none => 0

/-- `Map.set`: replace the existing binding in place or append a new one. -/
def setCount (counts : List (String × Nat)) (n : String) (v : Nat) :
    List (String × Nat) :=
  match counts with
  | [] => [(n, v)]
  | p :: rest => if p.1 == n then (n, v) :: rest else p :: setCount rest n v

/-- JS `Set.add` on an insertion-ordered duplicate-free list. -/
def addToSet (l : List String) (n : String) : List String :=
  if l.contains n then l else l ++ [n]

/-- The handler's singleton loop: walk the main-deck entries, skip basic lands
and singleton exceptions, accumulate the running per-name quantity, and record
a name in the violation set once its running count exceeds 1. -/
def singletonGo (r : Rules) : List DeckEntry → List (String × Nat) → List String →
    List String
  | [], _, ns => ns
  | e :: rest, counts, ns =>
    if !(basicLands.contains e.name) && !(r.singletonExceptions.contains e.name) then
      let count := lookupCount counts e.name + e.quantity
      let ns' := if count > 1 then addToSet ns e.name else ns
      singletonGo r rest (setCount counts e.name count) ns'
    else
      singletonGo r rest counts ns

/-- `Array.from(nonSingletonCards)` after the loop. -/
def nonSingletonCardsOf (r : Rules) (cards : List DeckEntry) : List String :=
  singletonGo r cards [] []

/-- The handler's color-identity loop: fetch each entry's card (the source's
`cardDataCache` memoizes the pure `fetchCard` and is semantically transparent)
and record the entry's name when its color identity is not contained in the
commander's. -/
def colorViolationsGo (store : List Card) (r : Rules) (ci : List String) :
    List DeckEntry → List String → List String
  | [], acc => acc
  | e :: rest, acc =>
    match fetchCard store r e.name with
    | none => colorViolationsGo store r ci rest acc
    | some cardData =>
      if cardData.colorIdentity.all (fun color => ci.contains color) then
        colorViolationsGo store r ci rest acc
      else
        colorViolationsGo store r ci rest (addToSet acc e.name)

/-- `Array.from(new Set(list))`: keep the first occurrence of each element. -/
def firstDedupGo : List String → List String → List String
  | [], acc => acc
  | x :: rest, acc => firstDedupGo rest (addToSet acc x)

/-- Insertion-ordered de-duplication. -/
def firstDedup (l : List String) : List String :=
  firstDedupGo l []

/-- The verdict the handler builds once `checkCommander` has passed
(lines 399-484 of the typed handler). -/
def buildVerdict (store : List Card) (r : Rules) (cards : List DeckEntry)
    (commander : DeckEntry) (validCommanderData : Card) : LegalityResponse :=
  let illegalCards :=
    (testDecklist store r { mainDeck := cards, commander := commander }).illegalCards
  let cardQuantities := (cards.map (fun card => card.quantity)).sum
  let totalCards := cardQuantities + commander.quantity
  let sizeOk := totalCards == 100
  let commanderOk := validCommanderData.pioneer == "legal"
  let nonSingletonCards := nonSingletonCardsOf r cards
  let singletonOk := nonSingletonCards.isEmpty
  let colorIdentity := validCommanderData.colorIdentity
  let colorIdentityViolations := colorViolationsGo store r colorIdentity cards []
  let colorOk := colorIdentityViolations.isEmpty
  let illegalOk := illegalCards.isEmpty
  { legal := sizeOk && commanderOk && colorOk && singletonOk && illegalOk
    commander := commander.name
    colorIdentity := firstDedup colorIdentity
    deckSize := totalCards
    requiredSize := 100
    illegalCards := illegalCards
    colorIdentityViolations := colorIdentityViolations
    nonSingletonCards := nonSingletonCards
    legalIssues := {
      size := if !sizeOk then
          some ("Deck size incorrect: has " ++ toString totalCards ++ " cards, needs 100")
        else none
      commander := if !commanderOk then some "Commander not legal in Pioneer" else none
      commanderType := none
      colorIdentity := if !colorOk then
          some "Cards outside commander's color identity"
        else none
      singleton := if !singletonOk then
          some "Deck contains multiple copies of non-basic land cards that aren't allowed to break the singleton rule"
        else none
      illegalCards := if !illegalOk then
          some "Deck contains cards that aren't legal in the format"
        else none } }

/-- The deck-legality evaluation: fetch the commander, run `checkCommander`
(whose `some` result the handler returns immediately), otherwise build the
full verdict. -/
def evaluateDeckLegality (store : List Card) (r : Rules) (cards : List DeckEntry)
    (commander : DeckEntry) : Except CommanderErrorResponse LegalityResponse :=
  -- the source binds `commanderData = cardManager.fetchCard(commander.name)`
  -- once; `fetchCard` is pure, so repeating the call is equivalent
  match checkCommander commander.name (fetchCard store r commander.name) with
  | some err => .error err
  | none =>
    match fetchCard store r commander.name with
    | none =>
      -- unreachable: `checkCommander` returns an error whenever the commander
      -- is absent (the source casts `commanderData as IScryfallCard` here)
      .error { legal := false, commander := commander.name
               error := "Commander not found in database", commanderType := none }
    | some validCommanderData =>
      .ok (buildVerdict store r cards commander validCommanderData)

/-! ## Bracket classifier (src/routes/api/commander-bracket.ts) -/

/-- Per-bracket requirement table entry; `none` in a maximum models the
source's `Number.POSITIVE_INFINITY` (never exceeded). -/
structure BracketRequirements where
  maxMassLandDenial : Option Nat
  maxExtraTurns : Option Nat
  maxTutors : Option Nat
  maxGameChangers : Option Nat
  maxTwoCardCombos : Option Nat
  allowsExtraTurnChaining : Bool
  allowsEarlyGameCombos : Bool
deriving DecidableEq, Inhabited, Repr

/-- `count > max`, with `Infinity` never exceeded. -/
def exceedsMax (count : Nat) (bound : Option Nat) : Bool :=
  match bound with
  | none => false
  | some m => count > m

/-- How a maximum prints inside a failure message (`Infinity` for the
unbounded entries, as JS stringifies `Number.POSITIVE_INFINITY`). -/
def maxShow : Option Nat → String
  | none => "Infinity"
  | some m => toString m

/-- `BRACKET_REQUIREMENTS`, paired with the bracket number the loop uses.
The source iterates `bracketNum` from 1 to 5 and indexes
`BRACKET_REQUIREMENTS[bracketNum - 1]`; index 4 is out of bounds, but bracket 4
imposes no limits, so the loop always stops at bracket 4 at the latest and the
fifth iteration is unreachable. -/
def bracket1Req : BracketRequirements :=
  { maxMassLandDenial := some 0, maxExtraTurns := some 0, maxTutors := some 2
    maxGameChangers := some 0, maxTwoCardCombos := some 0
    allowsExtraTurnChaining := false, allowsEarlyGameCombos := false }

def bracket2Req : BracketRequirements :=
  { maxMassLandDenial := some 0, maxExtraTurns := some 2, maxTutors := some 3
    maxGameChangers := some 0, maxTwoCardCombos := some 0
    allowsExtraTurnChaining := false, allowsEarlyGameCombos := false }

def bracket3Req : BracketRequirements :=
  { maxMassLandDenial := some 0, maxExtraTurns := some 3, maxTutors := none
    maxGameChangers := some 3, maxTwoCardCombos := none
    allowsExtraTurnChaining := false, allowsEarlyGameCombos := false }

def bracket4Req : BracketRequirements :=
  { maxMassLandDenial := none, maxExtraTurns := none, maxTutors := none
    maxGameChangers := none, maxTwoCardCombos := none
    allowsExtraTurnChaining := true, allowsEarlyGameCombos := true }

def bracketTable : List (Nat × BracketRequirements) :=
  [(1, bracket1Req), (2, bracket2Req), (3, bracket3Req), (4, bracket4Req)]

/-- `MASS_LAND_DENIAL_CARDS`. -/
def MASS_LAND_DENIAL_CARDS : List String :=
  [ "acid rain", "alpine moon", "apocalypse", "armageddon", "back to basics"
  , "bearer of the heavens", "bend or break", "blood moon", "boil", "boiling seas"
  , "boom // bust", "burning of xinye", "cataclysm", "catastrophe", "cleansing"
  , "contamination", "conversion", "death cloud", "decree of annihilation"
  , "desolation angel", "destructive force", "devastating dreams", "devastation"
  , "dimensional breach", "epicenter", "fall of the thran", "flashfires"
  , "gilt-leaf archdruid", "glaciers", "global ruin", "hall of gemstone"
  , "harbinger of the seas", "hokori, dust drinker", "impending disaster"
  , "infernal darkness", "jokulhaups", "keldon firebombers", "magus of the moon"
  , "myojin of infinite rage", "naked singularity", "obliterate", "omen of fire"
  , "raiding party", "ravages of war", "razia's purification", "reality twist"
  , "realm razer", "rising waters", "ritual of subdual", "ruination", "soulscour"
  , "stasis", "static orb", "stench of evil", "sunder", "tectonic break"
  , "thoughts of ruin", "tsunami", "urza's sylex", "wildfire", "winter moon"
  , "winter orb", "worldfire", "worldpurge", "worldslayer" ]

/-- `EXTRA_TURN_CHAIN_CARDS`. -/
def EXTRA_TURN_CHAIN_CARDS : List String :=
  [ "alchemist's gambit", "alrund's epiphany", "beacon of tomorrows"
  , "capture of jingzhou", "chance for glory", "expropriate", "final fortune"
  , "gonti's aether heart", "ichormoon gauntlet", "karn's temporal sundering"
  , "last chance", "lighthouse chronologist", "lost isle calling"
  , "magistrate's scepter", "magosi, the waterveil", "medomai the ageless"
  , "mu yanling", "nexus of fate", "notorious throng", "part the waterveil"
  , "plea for power", "ral zarek", "regenerations restored", "rise of the eldrazi"
  , "sage of hours", "savor the moment", "search the city", "second chance"
  , "seedtime", "stitch in time", "teferi, master of time", "teferi, timebender"
  , "temporal extortion", "temporal manipulation", "temporal mastery"
  , "temporal trespass", "time sieve", "timesifter", "timestream navigator"
  , "time stretch", "time warp", "twice upon a time", "ugin's nexus"
  , "walk the aeons", "wanderwine prophets", "warrior's oath", "wormfang manta" ]

/-- `GAME_CHANGER_CARDS`. -/
def GAME_CHANGER_CARDS : List String :=
  [ "ad nauseam", "ancient tomb", "aura shards", "bolas's citadel"
  , "braids, cabal minion", "chrome mox", "coalition victory", "consecrated sphinx"
  , "crop rotation", "cyclonic rift", "deflecting swat", "demonic tutor"
  , "drannith magistrate", "enlightened tutor", "expropriate", "field of the dead"
  , "fierce guardianship", "food chain", "force of will", "gaea's cradle"
  , "gamble", "gifts ungiven", "glacial chasm", "grand arbiter augustin iv"
  , "grim monolith", "humility", "imperial seal", "intuition", "jeska's will"
  , "jin-gitaxias, core augur", "kinnan, bonder prodigy", "lion's eye diamond"
  , "mana vault", "mishra's workshop", "mox diamond", "mystical tutor"
  , "narset, parter of veils", "natural order", "necropotence", "notion thief"
  , "opposition agent", "orcish bowmasters", "panoptic mirror", "rhystic study"
  , "seedborn muse", "serra's sanctum", "smothering tithe", "survival of the fittest"
  , "sway of the stars", "teferi's protection", "tergrid, god of fright"
  , "thassa's oracle", "the one ring", "the tabernacle at pendrell vale"
  , "underworld breach", "urza, lord high artificer", "vampiric tutor"
  , "vorinclex, voice of hunger", "winota, joiner of forces", "worldly tutor"
  , "yuriko, the tiger's shadow" ]

/-- `TUTOR_CARDS` (declared inside `analyzeDeckForBracket`). -/
def TUTOR_CARDS : List String :=
  [ "academy rector", "altar of bone", "archmage ascension", "artificer's intuition"
  , "behold the beyond", "beseech the mirror", "beseech the queen", "birthing pod"
  , "bring to light", "buried alive", "captain sisay", "chord of calling"
  , "cruel tutor", "dark petition", "demonic collusion", "demonic counsel"
  , "demonic tutor", "diabolic intent", "diabolic revelation", "diabolic tutor"
  , "eladamri's call", "eldritch evolution", "enlightened tutor", "entomb"
  , "fabricate", "fauna shaman", "finale of devastation", "gamble", "grim tutor"
  , "idyllic tutor", "imperial seal", "increasing ambition", "infernal tutor"
  , "insidious dreams", "intuition", "long-term plans", "maralen of the mornsong"
  , "mastermind's acquisition", "merchant scroll", "mystical tutor", "natural order"
  , "personal tutor", "prime speaker vannifar", "profane tutor", "razaketh's rite"
  , "reshape", "rhystic tutor", "scheming symmetry", "shared summons"
  , "sidisi, undead vizier", "solve the equation", "survival of the fittest"
  , "sylvan tutor", "tooth and nail", "traverse the ulvenwald", "unmarked grave"
  , "vampiric tutor", "varragoth, bloodsky sire", "wargate", "whir of invention"
  , "wishclaw talisman", "worldly tutor" ]

/-- A combo table entry's value. -/
structure ComboInfo where
  description : String
  totalCost : Nat
deriving DecidableEq, Inhabited, Repr

/-- One detected combo in the analysis output. -/
structure ComboEntry where
  cards : List String
  isEarlyGame : Bool
deriving DecidableEq, Inhabited, Repr

/-- `addCombo`: both orderings of the pair are keyed (`"a|b"` and `"b|a"`). -/
def comboPairKeys (card1 card2 description : String) (totalCost : Nat) :
    List (String × ComboInfo) :=
  [ (card1 ++ "|" ++ card2, { description := description, totalCost := totalCost })
  , (card2 ++ "|" ++ card1, { description := description, totalCost := totalCost }) ]

/-- `TWO_CARD_COMBOS`, the fixed symmetric combo table, as the association
list the six `addCombo` calls build. -/
def TWO_CARD_COMBOS : List (String × ComboInfo) :=
  comboPairKeys "kiki-jiki, mirror breaker" "zealous conscripts"
    "Infinite creatures with haste" 8 ++
  comboPairKeys "sanguine bond" "exquisite blood" "Infinite life drain" 10 ++
  comboPairKeys "mikaeus, the unhallowed" "triskelion" "Infinite damage" 10 ++
  comboPairKeys "splinter twin" "deceiver exarch" "Infinite creatures with haste" 7 ++
  comboPairKeys "isochron scepter" "dramatic reversal" "Infinite mana with mana rocks" 4 ++
  comboPairKeys "simic growth chamber" "retreat to coralhelm"
    "Infinite landfall with exploration effect" 5

/-- `TWO_CARD_COMBOS.get(key)`. -/
def comboLookup (key : String) : Option ComboInfo :=
  match TWO_CARD_COMBOS.find? (fun p => p.1 == key) with
  | some p => some p.2
  | none => none

/-- The inner loop of combo detection: pair the fixed first name with each
later name, in order. -/
def comboPairsForFirst (first : String) (rest : List String) : List ComboEntry :=
  rest.filterMap (fun second =>
    match comboLookup (first ++ "|" ++ second) with
    | none => none
    | some info =>
      some { cards := [first, second], isEarlyGame := info.totalCost < 8 })

/-- The nested index loops `i < j` of combo detection: every ordered position
pair is looked up, duplicates included. -/
def comboScan : List String → List ComboEntry
  | [] => []
  | x :: rest => comboPairsForFirst x rest ++ comboScan rest

/-- Extra-turn predicate: substring "extra turn" or "additional turn", or
membership in the chaining catalog (the loop variable is already lowercased;
the source lowercases again, which is idempotent but kept here). -/
def isExtraTurnCard (card : String) : Bool :=
  hasSubstr (jsToLower card) "extra turn" ||
    hasSubstr (jsToLower card) "additional turn" ||
    EXTRA_TURN_CHAIN_CARDS.contains (jsToLower card)

/-- The category counts and flags the bracket loop reads off the analysis. -/
structure CategoryCounts where
  massLandDenial : Nat
  extraTurns : Nat
  tutors : Nat
  gameChangers : Nat
  twoCardCombos : Nat
  hasExtraTurnChaining : Bool
  hasEarlyGameCombos : Bool
deriving DecidableEq, Inhabited, Repr

/-- The counts `analyzeDeckForBracket` computes from the lowercased names. -/
def analysisCounts (cardNames : List String) : CategoryCounts :=
  { massLandDenial :=
      (cardNames.filter (fun card => MASS_LAND_DENIAL_CARDS.contains card)).length
    extraTurns := (cardNames.filter isExtraTurnCard).length
    tutors := (cardNames.filter (fun card => TUTOR_CARDS.contains (jsToLower card))).length
    gameChangers :=
      (cardNames.filter (fun card => GAME_CHANGER_CARDS.contains (jsToLower card))).length
    twoCardCombos := (comboScan cardNames).length
    hasExtraTurnChaining :=
      cardNames.any (fun card => EXTRA_TURN_CHAIN_CARDS.contains (jsToLower card))
    hasEarlyGameCombos := (comboScan cardNames).any (fun combo => combo.isEarlyGame) }

/-- The failure messages one bracket produces, in the order the source checks
the seven requirements. -/
def bracketFailures (c : CategoryCounts) (pr : Nat × BracketRequirements) :
    List String :=
  let bracketNum := pr.1
  let req := pr.2
  (if exceedsMax c.massLandDenial req.maxMassLandDenial then
     ["Bracket " ++ toString bracketNum ++ " allows " ++ maxShow req.maxMassLandDenial ++
       " Mass Land Denial cards, found " ++ toString c.massLandDenial]
   else []) ++
  (if exceedsMax c.extraTurns req.maxExtraTurns then
     ["Bracket " ++ toString bracketNum ++ " allows " ++ maxShow req.maxExtraTurns ++
       " Extra Turn cards, found " ++ toString c.extraTurns]
   else []) ++
  (if exceedsMax c.tutors req.maxTutors then
     ["Bracket " ++ toString bracketNum ++ " allows " ++ maxShow req.maxTutors ++
       " Tutor cards, found " ++ toString c.tutors]
   else []) ++
  (if exceedsMax c.gameChangers req.maxGameChangers then
     ["Bracket " ++ toString bracketNum ++ " allows " ++ maxShow req.maxGameChangers ++
       " Game Changer cards, found " ++ toString c.gameChangers]
   else []) ++
  (if exceedsMax c.twoCardCombos req.maxTwoCardCombos then
     ["Bracket " ++ toString bracketNum ++ " allows " ++ maxShow req.maxTwoCardCombos ++
       " Two-Card Combo cards, found " ++ toString c.twoCardCombos]
   else []) ++
  (if c.hasExtraTurnChaining && !req.allowsExtraTurnChaining then
     ["Bracket " ++ toString bracketNum ++ " doesn't allow Extra Turn chaining cards"]
   else []) ++
  (if c.hasEarlyGameCombos && !req.allowsEarlyGameCombos then
     ["Bracket " ++ toString bracketNum ++ " doesn't allow early game infinite combos"]
   else [])

/-- The minimum-bracket loop: walk the requirement table in increasing order,
accumulate every rejected bracket's failure messages, and stop at the first
bracket with no failure; `minimumBracket` keeps its initial value 1 if the
table is exhausted (unreachable with the real table, whose bracket 4 never
fails). -/
def bracketLoop (c : CategoryCounts) :
    List (Nat × BracketRequirements) → List String → Nat × List String
  | [], acc => (1, acc)
  | pr :: rest, acc =>
    let fs := bracketFailures c pr
    if fs.isEmpty then (pr.1, acc) else bracketLoop c rest (acc ++ fs)

/-- The analysis record (source interface `DeckAnalysis`). -/
structure AnalysisDetails where
  minimumBracketReason : String
  recommendedBracketReason : String
  bracketRequirementsFailed : List String
deriving DecidableEq, Inhabited, Repr

structure DeckAnalysis where
  massLandDenial : List String
  extraTurns : List String
  tutors : List String
  gameChangers : List String
  twoCardCombos : List ComboEntry
  minimumBracket : Nat
  recommendedBracket : Nat
  details : AnalysisDetails
deriving DecidableEq, Inhabited, Repr

/-- `getMinimumBracketReason`: the synthesized explanation string (purely
descriptive; not used for control flow). -/
def getMinimumBracketReason (analysis : DeckAnalysis) : String :=
  let reasons : List String :=
    (if analysis.massLandDenial.length > 0 then
       [toString analysis.massLandDenial.length ++ " mass land denial cards"]
     else []) ++
    (if analysis.extraTurns.length > 0 then
       (if analysis.extraTurns.length > 3 then
          [toString analysis.extraTurns.length ++ " extra turn cards (above bracket 3 limit)"]
        else if analysis.extraTurns.length > 2 then
          [toString analysis.extraTurns.length ++ " extra turn cards (above bracket 2 limit)"]
        else
          [toString analysis.extraTurns.length ++ " extra turn cards (above bracket 1 limit)"])
     else []) ++
    (if analysis.extraTurns.any (fun card => EXTRA_TURN_CHAIN_CARDS.contains (jsToLower card)) then
       ["extra turn chaining cards (requires bracket 4+)"]
     else []) ++
    (if analysis.tutors.length > 0 then
       (if analysis.tutors.length > 3 then
          [toString analysis.tutors.length ++ " tutors (above bracket 2 limit)"]
        else if analysis.tutors.length > 2 then
          [toString analysis.tutors.length ++ " tutors (above bracket 1 limit)"]
        else [])
     else []) ++
    (if analysis.gameChangers.length > 0 then
       (if analysis.gameChangers.length > 3 then
          [toString analysis.gameChangers.length ++ " game changer cards (above bracket 3 limit)"]
        else
          [toString analysis.gameChangers.length ++ " game changer cards (above bracket 2 limit)"])
     else []) ++
    (if analysis.twoCardCombos.length > 0 then
       let earlyGameCombos := (analysis.twoCardCombos.filter (fun combo => combo.isEarlyGame)).length
       let lateGameCombos := analysis.twoCardCombos.length - earlyGameCombos
       (if earlyGameCombos > 0 then
          [toString earlyGameCombos ++ " early game infinite combos (requires bracket 4+)"]
        else []) ++
       (if lateGameCombos > 0 then
          [toString lateGameCombos ++ " late game infinite combos (allowed in bracket 3+)"]
        else [])
     else [])
  if reasons.length == 0 then
    "Meets all criteria for Bracket " ++ toString analysis.minimumBracket
  else if analysis.minimumBracket ≥ 4 then
    "Minimum Bracket " ++ toString analysis.minimumBracket ++ " due to: " ++
      String.intercalate ", " reasons
  else
    "Bracket " ++ toString analysis.minimumBracket ++ ": has " ++
      String.intercalate ", " reasons ++ " but still meets requirements"

/-- `analyzeDeckForBracket`: lowercase the names, compute the category lists,
run the minimum-bracket loop, synthesize the reasons, and map an optional
power score to the recommended bracket. -/
def analyzeDeckForBracket (cards : List String) (powerScore : Option Nat) :
    DeckAnalysis :=
  let cardNames := cards.map jsToLower
  let massLandDenial := cardNames.filter (fun card => MASS_LAND_DENIAL_CARDS.contains card)
  let extraTurns := cardNames.filter isExtraTurnCard
  let tutors := cardNames.filter (fun card => TUTOR_CARDS.contains (jsToLower card))
  let gameChangers := cardNames.filter (fun card => GAME_CHANGER_CARDS.contains (jsToLower card))
  let twoCardCombos := comboScan cardNames
  let counts := analysisCounts cardNames
  let loopResult := bracketLoop counts bracketTable []
  let minimumBracket := loopResult.1
  let requirementsFailed := loopResult.2
  let base : DeckAnalysis :=
    { massLandDenial := massLandDenial, extraTurns := extraTurns, tutors := tutors
      gameChangers := gameChangers, twoCardCombos := twoCardCombos
      minimumBracket := minimumBracket, recommendedBracket := 1
      details := { minimumBracketReason := "", recommendedBracketReason := ""
                   bracketRequirementsFailed := requirementsFailed } }
  let reason := getMinimumBracketReason base
  match powerScore with
  | some score =>
    let recommendedBracket :=
      if score ≥ 800 then Nat.max minimumBracket 4
      else if score ≥ 650 then Nat.max minimumBracket 3
      else if score ≥ 500 then Nat.max minimumBracket 2
      else minimumBracket
    { base with
      recommendedBracket := recommendedBracket
      details := { base.details with
        minimumBracketReason := reason
        recommendedBracketReason := "Based on power score " ++ toString score } }
  | none =>
    { base with
      recommendedBracket := minimumBracket
      details := { base.details with
        minimumBracketReason := reason
        recommendedBracketReason := "No power score provided, using minimum bracket" } }

/-! ## Specification-side helper definitions used in theorem statements -/

/-- Aggregate quantity claimed for one name across all deck entries. -/
def totalQuantity (cards : List DeckEntry) (n : String) : Nat :=
  ((cards.filter (fun e => e.name == n)).map (fun e => e.quantity)).sum

/-- The deck's total card count: every main-deck quantity plus the
commander's. -/
def deckTotal (cards : List DeckEntry) (commander : DeckEntry) : Nat :=
  (cards.map (fun card => card.quantity)).sum + commander.quantity

/-- A name exempt from the singleton rule: a basic land or a listed
exception. -/
def exemptName (r : Rules) (n : String) : Bool :=
  basicLands.contains n || r.singletonExceptions.contains n

/-- The first space-delimited token of a line, exactly as `parseLine`
extracts it. -/
def leadingToken (line : String) : String :=
  (jsSplit line ' ').headD ""

/-- Whether a line's leading token parses (JS `parseInt`) as an integer at
least 1. -/
def validQuantityLine (line : String) : Bool :=
  match parseIntJS (leadingToken line) with
  | none => false
  | some q => decide (1 ≤ q)

/-- Extract the verdict of a successful evaluation (used by witnesses at
concrete inputs where the evaluation is known to succeed). -/
def okVerdict (x : Except CommanderErrorResponse LegalityResponse) :
    LegalityResponse :=
  match x with
  | .ok v => v
  | .error _ => default

/-! ## Concrete fixtures

A small card store mirroring `CardManager.setupTestData`'s mock records, plus
a double-faced card; used by the witnesses and counterexamples. -/

def exElesh : Card :=
  { name := "Elesh Norn", typeLine := "Legendary Creature - Praetor"
    colorIdentity := ["W"], pioneer := "legal", layout := "normal", faces := [] }

def exIsland : Card :=
  { name := "Island", typeLine := "Basic Land — Island"
    colorIdentity := ["U"], pioneer := "legal", layout := "normal", faces := [] }

def exSolRing : Card :=
  { name := "Sol Ring", typeLine := "Artifact"
    colorIdentity := [], pioneer := "not_legal", layout := "normal", faces := [] }

def exRatColony : Card :=
  { name := "Rat Colony", typeLine := "Creature — Rat"
    colorIdentity := ["B"], pioneer := "legal", layout := "normal", faces := [] }

def exDFC : Card :=
  { name := "Front // Back", typeLine := "Creature — Human Werewolf"
    colorIdentity := ["G"], pioneer := "legal", layout := "transform"
    faces := ["Front", "Back"] }

def exStore : List Card := [exElesh, exIsland, exSolRing, exRatColony, exDFC]

def exRules : Rules :=
  { bannedList := [], allowedList := [], singletonExceptions := ["Rat Colony"] }

/-! ## General lemmas -/

lemma contains_iff_mem_str (l : List String) (a : String) :
    l.contains a = true ↔ a ∈ l := by
  simp [List.contains]

lemma mem_addToSet {l : List String} {a n : String} :
    a ∈ addToSet l n ↔ a ∈ l ∨ a = n := by
  unfold addToSet
  by_cases h : l.contains n = true
  · rw [if_pos h]
    have hn : n ∈ l := (contains_iff_mem_str l n).mp h
    constructor
    · exact fun ha => Or.inl ha
    · rintro (ha | rfl)
      · exact ha
      · exact hn
  · rw [if_neg h]
    simp

lemma nodup_addToSet {l : List String} {n : String} (h : l.Nodup) :
    (addToSet l n).Nodup := by
  unfold addToSet
  by_cases hc : l.contains n = true
  · rw [if_pos hc]; exact h
  · rw [if_neg hc]
    have hn : n ∉ l := fun hm => hc ((contains_iff_mem_str l n).mpr hm)
    simp [List.nodup_append, h, hn]

/-- A successful evaluation unpacked: the commander resolved, its type line
passed both checks, and the verdict is `buildVerdict`. -/
lemma evaluateDeckLegality_ok_iff {store : List Card} {r : Rules}
    {cards : List DeckEntry} {commander : DeckEntry} {v : LegalityResponse} :
    evaluateDeckLegality store r cards commander = .ok v ↔
      ∃ c, fetchCard store r commander.name = some c ∧
        hasSubstr (jsToLower c.typeLine) "creature" = true ∧
        hasSubstr (jsToLower c.typeLine) "legendary" = true ∧
        v = buildVerdict store r cards commander c := by
  unfold evaluateDeckLegality
  cases h : fetchCard store r commander.name with
  | none =>
    simp only [checkCommander]
    simp
  | some c =>
    by_cases h1 : hasSubstr (jsToLower c.typeLine) "creature" = true
    · by_cases h2 : hasSubstr (jsToLower c.typeLine) "legendary" = true
      · simp only [checkCommander, h1, h2, Bool.not_true, Bool.false_eq_true, if_false]
        constructor
        · intro he
          exact ⟨c, rfl, h1, h2, (Except.ok.inj he).symm⟩
        · rintro ⟨c2, hc2, _, _, hv⟩
          obtain rfl : c = c2 := Option.some.inj hc2
          rw [hv]
      · have h2f : hasSubstr (jsToLower c.typeLine) "legendary" = false :=
          Bool.eq_false_iff.mpr h2
        simp only [checkCommander, h1, h2f, Bool.not_true, Bool.not_false,
          Bool.false_eq_true, if_false, if_true]
        constructor
        · intro he
          exact Except.noConfusion he
        · rintro ⟨c2, hc2, _, hh2, _⟩
          obtain rfl : c = c2 := Option.some.inj hc2
          exact absurd hh2 h2
    · have h1f : hasSubstr (jsToLower c.typeLine) "creature" = false :=
        Bool.eq_false_iff.mpr h1
      simp only [checkCommander, h1f, Bool.not_false, if_true]
      constructor
      · intro he
        exact Except.noConfusion he
      · rintro ⟨c2, hc2, hh1, _, _⟩
        obtain rfl : c = c2 := Option.some.inj hc2
        exact absurd hh1 h1

/-- When `checkCommander` fails, the evaluation returns exactly that error. -/
lemma evaluateDeckLegality_error_of_checkCommander {store : List Card} {r : Rules}
    {cards : List DeckEntry} {commander : DeckEntry} {e : CommanderErrorResponse}
    (h : checkCommander commander.name (fetchCard store r commander.name) = some e) :
    evaluateDeckLegality store r cards commander = .error e := by
  unfold evaluateDeckLegality
  rw [h]

/-! ## Claims -/

/-- C2: `isCardLegal` on a resolved record is true iff the name is on the
allowed list, or the record's pioneer legality flag is "legal" and the name is
not on the banned list.  In particular a pioneer-illegal card on the allow
list is legal, and a pioneer-legal card on the ban list is illegal. -/
theorem isCardLegal_iff_allowed_or_pioneer_unbanned (r : Rules) (n : String)
    (c : Card) :
    isCardLegal r n (some c) = true ↔
      n ∈ r.allowedList ∨ (c.pioneer = "legal" ∧ n ∉ r.bannedList) := by
  simp [isCardLegal, List.contains]

/-- C10: a commander whose resolved type line contains "creature" but not
"legendary" makes the evaluation return early with `legal: false` and the
`commanderType` issue "Commander must be legendary", before any deck check
runs (the result is the bare commander-error payload, not a verdict). -/
theorem nonlegendary_creature_commander_rejected (store : List Card) (r : Rules)
    (cards : List DeckEntry) (commander : DeckEntry) (c : Card)
    (hc : fetchCard store r commander.name = some c)
    (hcr : hasSubstr (jsToLower c.typeLine) "creature" = true)
    (hleg : hasSubstr (jsToLower c.typeLine) "legendary" = false) :
    evaluateDeckLegality store r cards commander =
      .error { legal := false, commander := commander.name
               error := "Commander must be legendary"
               commanderType := some "Commander must be legendary" } := by
  apply evaluateDeckLegality_error_of_checkCommander
  rw [hc]
  unfold checkCommander
  simp [hcr, hleg]

/-- Witness for C10: "Rat Colony" is a creature but not legendary, so using it
as commander is rejected with the legendary commander-type issue. -/
theorem nonlegendary_creature_commander_rejected_witness :
    evaluateDeckLegality exStore exRules [{ quantity := 1, name := "Island" }]
      { quantity := 1, name := "Rat Colony" } =
      .error { legal := false, commander := "Rat Colony"
               error := "Commander must be legendary"
               commanderType := some "Commander must be legendary" } :=
  nonlegendary_creature_commander_rejected exStore exRules
    [{ quantity := 1, name := "Island" }]
    { quantity := 1, name := "Rat Colony" }
    { name := "Rat Colony", typeLine := "Creature — Rat", colorIdentity := ["B"]
      pioneer := "legal", layout := "normal", faces := [] }
    rfl (by decide) (by decide)

/-- C1 counterexample: with an unresolvable commander the evaluation returns
the early commander-error payload and no verdict at all — none of the five
`legalIssues` fields nor the main-deck diagnostics are computed, refuting the
claim that they always are. -/
theorem commander_not_found_skips_diagnostics :
    fetchCard [] exRules "Missing Commander" = none ∧
      (∀ v, evaluateDeckLegality [] exRules
        [{ quantity := 1, name := "Island" }]
        { quantity := 1, name := "Missing Commander" } ≠ .ok v) ∧
      evaluateDeckLegality [] exRules [{ quantity := 1, name := "Island" }]
        { quantity := 1, name := "Missing Commander" } =
        .error { legal := false, commander := "Missing Commander"
                 error := "Commander not found in database", commanderType := none } := by
  have he : evaluateDeckLegality [] exRules [{ quantity := 1, name := "Island" }]
      { quantity := 1, name := "Missing Commander" } =
      .error { legal := false, commander := "Missing Commander"
               error := "Commander not found in database", commanderType := none } := rfl
  refine ⟨rfl, ?_, he⟩
  intro v h
  rw [he] at h
  exact Except.noConfusion h

/-- C1 as amended: when the commander does not resolve, or resolves to a card
whose type line does not contain "creature", the evaluation returns early with
an error payload carrying `legal: false` and only the commander error — it
does not compute the verdict's `legalIssues` fields or main-deck
diagnostics. -/
theorem commander_failure_early_return (store : List Card) (r : Rules)
    (cards : List DeckEntry) (commander : DeckEntry)
    (h : fetchCard store r commander.name = none ∨
      ∃ c, fetchCard store r commander.name = some c ∧
        hasSubstr (jsToLower c.typeLine) "creature" = false) :
    ∃ e, evaluateDeckLegality store r cards commander = .error e ∧
      e.legal = false := by
  rcases h with h | ⟨c, hc, hcr⟩
  · refine ⟨{ legal := false, commander := commander.name
              error := "Commander not found in database", commanderType := none },
      evaluateDeckLegality_error_of_checkCommander ?_, rfl⟩
    rw [h]
    rfl
  · refine ⟨{ legal := false, commander := commander.name
              error := "Commander must be a creature"
              commanderType := some "Commander must be a creature" },
      evaluateDeckLegality_error_of_checkCommander ?_, rfl⟩
    rw [hc]
    unfold checkCommander
    simp [hcr]

/-- Witness for C1 (amended): a commander absent from an empty store makes the
evaluation return an early error with `legal: false`. -/
theorem commander_failure_early_return_witness :
    ∃ e, evaluateDeckLegality [] exRules [{ quantity := 1, name := "Island" }]
      { quantity := 1, name := "Nobody" } = .error e ∧ e.legal = false :=
  commander_failure_early_return [] exRules [{ quantity := 1, name := "Island" }]
    { quantity := 1, name := "Nobody" } (Or.inl rfl)

/-- C3 counterexample: a deck with total quantity 1 (not 100) whose commander
is a non-creature gets the early commander-error response, which has no
`legalIssues.size` field and is not a verdict — refuting "regardless of all
other properties of the deck". -/
theorem size_invariant_fails_on_commander_error :
    deckTotal [{ quantity := 1, name := "Island" }]
      { quantity := 1, name := "Sol Ring" } ≠ 100 ∧
      (∀ v, evaluateDeckLegality exStore exRules [{ quantity := 1, name := "Island" }]
        { quantity := 1, name := "Sol Ring" } ≠ .ok v) ∧
      evaluateDeckLegality exStore exRules [{ quantity := 1, name := "Island" }]
        { quantity := 1, name := "Sol Ring" } =
        .error { legal := false, commander := "Sol Ring"
                 error := "Commander must be a creature"
                 commanderType := some "Commander must be a creature" } := by
  have he : evaluateDeckLegality exStore exRules [{ quantity := 1, name := "Island" }]
      { quantity := 1, name := "Sol Ring" } =
      .error { legal := false, commander := "Sol Ring"
               error := "Commander must be a creature"
               commanderType := some "Commander must be a creature" } := rfl
  refine ⟨by decide, ?_, he⟩
  intro v h
  rw [he] at h
  exact Except.noConfusion h

/-- C3 as amended: for every deck whose commander passes the commander checks
(so that a verdict is returned at all), a total quantity different from 100
forces `legalIssues.size` non-null and `legal = false`, whatever the other
deck contents are. -/
theorem size_violation_flags_size_issue (store : List Card) (r : Rules)
    (cards : List DeckEntry) (commander : DeckEntry) (v : LegalityResponse)
    (hok : evaluateDeckLegality store r cards commander = .ok v)
    (hsize : deckTotal cards commander ≠ 100) :
    v.legalIssues.size ≠ none ∧ v.legal = false := by
  obtain ⟨c, _, _, _, hv⟩ := evaluateDeckLegality_ok_iff.mp hok
  subst hv
  have hbeq : ((cards.map (fun card => card.quantity)).sum + commander.quantity
      == 100) = false := by
    simpa [deckTotal] using hsize
  constructor
  · simp [buildVerdict, hbeq]
  · simp [buildVerdict, hbeq]

/-- Witness for C3 (amended): a two-card deck under "Elesh Norn" evaluates to
a verdict with a non-null size issue and `legal = false`. -/
theorem size_violation_flags_size_issue_witness :
    (okVerdict (evaluateDeckLegality exStore exRules
        [{ quantity := 1, name := "Island" }]
        { quantity := 1, name := "Elesh Norn" })).legalIssues.size ≠ none ∧
      (okVerdict (evaluateDeckLegality exStore exRules
        [{ quantity := 1, name := "Island" }]
        { quantity := 1, name := "Elesh Norn" })).legal = false :=
  size_violation_flags_size_issue exStore exRules
    [{ quantity := 1, name := "Island" }] { quantity := 1, name := "Elesh Norn" }
    (okVerdict (evaluateDeckLegality exStore exRules
      [{ quantity := 1, name := "Island" }] { quantity := 1, name := "Elesh Norn" }))
    rfl (by decide)



/-! ## Singleton-check lemmas -/

lemma lookupCount_setCount_self (counts : List (String × Nat)) (m : String) (v : Nat) :
    lookupCount (setCount counts m v) m = v := by
  induction counts with
  | nil => simp [setCount, lookupCount, List.find?_cons]
  | cons p rest ih =>
    by_cases hpm : p.1 = m
    · simp [setCount, lookupCount, List.find?_cons, hpm]
    · simpa [setCount, lookupCount, List.find?_cons, hpm] using ih

lemma lookupCount_setCount_ne (counts : List (String × Nat)) {m n : String} (v : Nat)
    (hmn : m ≠ n) :
    lookupCount (setCount counts m v) n = lookupCount counts n := by
  induction counts with
  | nil => simp [setCount, lookupCount, List.find?_cons, hmn]
  | cons p rest ih =>
    by_cases hpm : p.1 = m
    · have hpn : p.1 ≠ n := fun h => hmn (hpm ▸ h)
      simp [setCount, lookupCount, List.find?_cons, hpm, hpn, hmn]
    · by_cases hpn : p.1 = n
      · have hnm : ¬ n = m := fun h => hmn h.symm
        simp [setCount, lookupCount, List.find?_cons, hpm, hpn, hnm]
      · simpa [setCount, lookupCount, List.find?_cons, hpm, hpn] using ih

lemma totalQuantity_cons (e : DeckEntry) (rest : List DeckEntry) (n : String) :
    totalQuantity (e :: rest) n =
      (if e.name = n then e.quantity else 0) + totalQuantity rest n := by
  by_cases h : e.name = n <;> simp [totalQuantity, List.filter_cons, h]

lemma totalQuantity_eq_zero {entries : List DeckEntry} {n : String}
    (h : entries.any (fun e => e.name == n) = false) : totalQuantity entries n = 0 := by
  have hnil : entries.filter (fun e => e.name == n) = [] := by
    rw [List.filter_eq_nil_iff]
    intro e he
    have := List.any_eq_false.mp h e he
    simpa using this
  simp [totalQuantity, hnil]


lemma mem_singletonGo (r : Rules) (n : String) (entries : List DeckEntry) :
    ∀ (counts : List (String × Nat)) (ns : List String),
      n ∈ singletonGo r entries counts ns ↔
        n ∈ ns ∨ (exemptName r n = false ∧ entries.any (fun e => e.name == n) = true ∧
          lookupCount counts n + totalQuantity entries n > 1) := by
  induction entries with
  | nil =>
    intro counts ns
    simp [singletonGo]
  | cons e rest ih =>
    intro counts ns
    rw [show singletonGo r (e :: rest) counts ns =
      (if !(basicLands.contains e.name) && !(r.singletonExceptions.contains e.name) then
        singletonGo r rest (setCount counts e.name (lookupCount counts e.name + e.quantity))
          (if lookupCount counts e.name + e.quantity > 1 then addToSet ns e.name else ns)
      else singletonGo r rest counts ns) from rfl]
    have hcond : (!(basicLands.contains e.name) && !(r.singletonExceptions.contains e.name)) =
        !(exemptName r e.name) := by
      simp [exemptName]
    rw [hcond]
    by_cases hex : exemptName r e.name = true
    · rw [hex]
      simp only [Bool.not_true, Bool.false_eq_true, if_false]
      rw [ih]
      by_cases hen : e.name = n
      · subst hen
        constructor
        · rintro (h | ⟨hf, _, _⟩)
          · exact Or.inl h
          · rw [hex] at hf; exact absurd hf (by simp)
        · rintro (h | ⟨hf, _, _⟩)
          · exact Or.inl h
          · rw [hex] at hf; exact absurd hf (by simp)
      · have hany : ((e :: rest).any (fun x => x.name == n)) = (rest.any (fun x => x.name == n)) := by
          simp [List.any_cons, hen]
        have htot : totalQuantity (e :: rest) n = totalQuantity rest n := by
          rw [totalQuantity_cons, if_neg hen, Nat.zero_add]
        rw [hany, htot]
    · have hexf : exemptName r e.name = false := Bool.eq_false_iff.mpr hex
      rw [hexf]
      simp only [Bool.not_false, if_true]
      rw [ih]
      by_cases hen : e.name = n
      · subst hen
        have hl : lookupCount (setCount counts e.name (lookupCount counts e.name + e.quantity)) e.name =
            lookupCount counts e.name + e.quantity := lookupCount_setCount_self ..
        rw [hl]
        have htot : totalQuantity (e :: rest) e.name = e.quantity + totalQuantity rest e.name := by
          rw [totalQuantity_cons, if_pos rfl]
        rw [htot]
        have hanyc : ((e :: rest).any (fun x => x.name == e.name)) = true := by
          simp [List.any_cons]
        rw [hanyc]
        by_cases hc : lookupCount counts e.name + e.quantity > 1
        · rw [if_pos hc]
          constructor
          · intro _
            exact Or.inr ⟨hexf, rfl, by omega⟩
          · intro _
            left
            exact mem_addToSet.mpr (Or.inr rfl)
        · rw [if_neg hc]
          constructor
          · rintro (h | ⟨_, hany, hgt⟩)
            · exact Or.inl h
            · exact Or.inr ⟨hexf, rfl, by omega⟩
          · rintro (h | ⟨_, _, hgt⟩)
            · exact Or.inl h
            · by_cases hanyr : rest.any (fun x => x.name == e.name) = true
              · exact Or.inr ⟨hexf, hanyr, by omega⟩
              · have h0 : totalQuantity rest e.name = 0 :=
                  totalQuantity_eq_zero (Bool.eq_false_iff.mpr hanyr)
                omega
      · have hl : lookupCount (setCount counts e.name (lookupCount counts e.name + e.quantity)) n =
            lookupCount counts n := lookupCount_setCount_ne counts _ hen
        rw [hl]
        have hany : ((e :: rest).any (fun x => x.name == n)) = (rest.any (fun x => x.name == n)) := by
          simp [List.any_cons, hen]
        have htot : totalQuantity (e :: rest) n = totalQuantity rest n := by
          rw [totalQuantity_cons, if_neg hen, Nat.zero_add]
        rw [hany, htot]
        by_cases hc : lookupCount counts e.name + e.quantity > 1
        · rw [if_pos hc]
          have hmem : n ∈ addToSet ns e.name ↔ n ∈ ns := by
            rw [mem_addToSet]
            constructor
            · rintro (h | h)
              · exact h
              · exact absurd h.symm hen
            · exact Or.inl
          rw [hmem]
        · rw [if_neg hc]

lemma nodup_singletonGo (r : Rules) (entries : List DeckEntry) :
    ∀ (counts : List (String × Nat)) (ns : List String), ns.Nodup →
      (singletonGo r entries counts ns).Nodup := by
  induction entries with
  | nil =>
    intro counts ns h
    simpa [singletonGo] using h
  | cons e rest ih =>
    intro counts ns h
    show (if !(basicLands.contains e.name) && !(r.singletonExceptions.contains e.name) then
        singletonGo r rest (setCount counts e.name (lookupCount counts e.name + e.quantity))
          (if lookupCount counts e.name + e.quantity > 1 then addToSet ns e.name else ns)
      else singletonGo r rest counts ns).Nodup
    by_cases hcond : (!(basicLands.contains e.name) && !(r.singletonExceptions.contains e.name)) = true
    · rw [if_pos hcond]
      apply ih
      by_cases hc : lookupCount counts e.name + e.quantity > 1
      · rw [if_pos hc]
        exact nodup_addToSet h
      · rw [if_neg hc]
        exact h
    · rw [if_neg (by simpa using hcond)]
      exact ih counts ns h

lemma mem_nonSingletonCardsOf {r : Rules} {cards : List DeckEntry} {n : String} :
    n ∈ nonSingletonCardsOf r cards ↔
      exemptName r n = false ∧ totalQuantity cards n > 1 := by
  unfold nonSingletonCardsOf
  rw [mem_singletonGo]
  simp only [List.not_mem_nil, false_or, lookupCount, List.find?_nil]
  constructor
  · rintro ⟨hex, _, ht⟩
    exact ⟨hex, by omega⟩
  · rintro ⟨hex, ht⟩
    refine ⟨hex, ?_, by omega⟩
    by_cases hany : cards.any (fun e => e.name == n) = true
    · exact hany
    · have h0 : totalQuantity cards n = 0 :=
        totalQuantity_eq_zero (Bool.eq_false_iff.mpr hany)
      omega

lemma nodup_nonSingletonCardsOf (r : Rules) (cards : List DeckEntry) :
    (nonSingletonCardsOf r cards).Nodup :=
  nodup_singletonGo r cards [] [] List.nodup_nil


/-- C4: in the singleton check, a name that is neither a basic land nor a
singleton exception has its quantities aggregated across all entries sharing
the name: an aggregate above 1 puts the name in `nonSingletonCards` exactly
once and makes the singleton issue non-null; an aggregate of at most 1 is
never reported; basic lands and exception names are never reported. -/
theorem singleton_aggregation_reported_once (store : List Card) (r : Rules)
    (cards : List DeckEntry) (commander : DeckEntry) (v : LegalityResponse)
    (hok : evaluateDeckLegality store r cards commander = .ok v) (n : String) :
    (basicLands.contains n = false → r.singletonExceptions.contains n = false →
      (totalQuantity cards n > 1 →
        v.nonSingletonCards.count n = 1 ∧ v.legalIssues.singleton ≠ none) ∧
      (totalQuantity cards n ≤ 1 → n ∉ v.nonSingletonCards)) ∧
    ((basicLands.contains n = true ∨ r.singletonExceptions.contains n = true) →
      n ∉ v.nonSingletonCards) := by
  obtain ⟨c, _, _, _, hv⟩ := evaluateDeckLegality_ok_iff.mp hok
  subst hv
  have hns : (buildVerdict store r cards commander c).nonSingletonCards =
      nonSingletonCardsOf r cards := rfl
  have hsing : (buildVerdict store r cards commander c).legalIssues.singleton =
      (if !(nonSingletonCardsOf r cards).isEmpty then
        some "Deck contains multiple copies of non-basic land cards that aren't allowed to break the singleton rule"
      else none) := rfl
  constructor
  · intro hb he
    have hex : exemptName r n = false := by
      rw [exemptName, hb, he]
      rfl
    constructor
    · intro ht
      have hm : n ∈ nonSingletonCardsOf r cards := mem_nonSingletonCardsOf.mpr ⟨hex, ht⟩
      constructor
      · rw [hns]
        exact List.count_eq_one_of_mem (nodup_nonSingletonCardsOf r cards) hm
      · rw [hsing]
        have hne : (nonSingletonCardsOf r cards).isEmpty = false := by
          rcases hq : nonSingletonCardsOf r cards with _ | ⟨a, l⟩
          · rw [hq] at hm
            exact absurd hm (List.not_mem_nil n)
          · rfl
        rw [hne]
        simp
    · intro ht hmem
      rw [hns] at hmem
      have := (mem_nonSingletonCardsOf.mp hmem).2
      omega
  · intro hbe hmem
    rw [hns] at hmem
    have hex := (mem_nonSingletonCardsOf.mp hmem).1
    rcases hbe with hb | he
    · rw [exemptName, hb] at hex
      simp at hex
    · rw [exemptName, he] at hex
      simp at hex

/-- Witness for C4: two "Sol Ring" lines of quantity 1 each under "Elesh
Norn" are reported once, with the singleton issue set. -/
theorem singleton_aggregation_reported_once_witness :
    (basicLands.contains "Sol Ring" = false →
      exRules.singletonExceptions.contains "Sol Ring" = false →
      (totalQuantity [{ quantity := 1, name := "Sol Ring" },
          { quantity := 1, name := "Sol Ring" }] "Sol Ring" > 1 →
        (okVerdict (evaluateDeckLegality exStore exRules
          [{ quantity := 1, name := "Sol Ring" }, { quantity := 1, name := "Sol Ring" }]
          { quantity := 1, name := "Elesh Norn" })).nonSingletonCards.count "Sol Ring" = 1 ∧
        (okVerdict (evaluateDeckLegality exStore exRules
          [{ quantity := 1, name := "Sol Ring" }, { quantity := 1, name := "Sol Ring" }]
          { quantity := 1, name := "Elesh Norn" })).legalIssues.singleton ≠ none) ∧
      (totalQuantity [{ quantity := 1, name := "Sol Ring" },
          { quantity := 1, name := "Sol Ring" }] "Sol Ring" ≤ 1 →
        "Sol Ring" ∉ (okVerdict (evaluateDeckLegality exStore exRules
          [{ quantity := 1, name := "Sol Ring" }, { quantity := 1, name := "Sol Ring" }]
          { quantity := 1, name := "Elesh Norn" })).nonSingletonCards)) ∧
    ((basicLands.contains "Sol Ring" = true ∨
        exRules.singletonExceptions.contains "Sol Ring" = true) →
      "Sol Ring" ∉ (okVerdict (evaluateDeckLegality exStore exRules
        [{ quantity := 1, name := "Sol Ring" }, { quantity := 1, name := "Sol Ring" }]
        { quantity := 1, name := "Elesh Norn" })).nonSingletonCards) :=
  singleton_aggregation_reported_once exStore exRules
    [{ quantity := 1, name := "Sol Ring" }, { quantity := 1, name := "Sol Ring" }]
    { quantity := 1, name := "Elesh Norn" }
    (okVerdict (evaluateDeckLegality exStore exRules
      [{ quantity := 1, name := "Sol Ring" }, { quantity := 1, name := "Sol Ring" }]
      { quantity := 1, name := "Elesh Norn" }))
    rfl "Sol Ring"



/-! ## Color-identity lemmas -/

lemma mem_colorViolationsGo (store : List Card) (r : Rules) (ci : List String)
    (n : String) (entries : List DeckEntry) :
    ∀ (acc : List String),
      n ∈ colorViolationsGo store r ci entries acc ↔
        n ∈ acc ∨ ((∃ e ∈ entries, e.name = n) ∧ ∃ cd, fetchCard store r n = some cd ∧
          cd.colorIdentity.all (fun color => ci.contains color) = false) := by
  induction entries with
  | nil =>
    intro acc
    simp [colorViolationsGo]
  | cons e rest ih =>
    intro acc
    have hmemcons : (∃ x ∈ e :: rest, x.name = n) ↔
        (e.name = n ∨ ∃ x ∈ rest, x.name = n) := by
      constructor
      · rintro ⟨x, hx, hxn⟩
        rcases List.mem_cons.mp hx with rfl | hx2
        · exact Or.inl hxn
        · exact Or.inr ⟨x, hx2, hxn⟩
      · rintro (h | ⟨x, hx, hxn⟩)
        · exact ⟨e, List.mem_cons_self e rest, h⟩
        · exact ⟨x, List.mem_cons_of_mem e hx, hxn⟩
    show n ∈ (match fetchCard store r e.name with
      | none => colorViolationsGo store r ci rest acc
      | some cardData =>
        if cardData.colorIdentity.all (fun color => ci.contains color) then
          colorViolationsGo store r ci rest acc
        else colorViolationsGo store r ci rest (addToSet acc e.name)) ↔ _
    by_cases hen : e.name = n
    · rcases hf : fetchCard store r e.name with _ | cd
      · have hfn : fetchCard store r n = none := by rw [← hen]; exact hf
        rw [ih, hmemcons]
        constructor
        · rintro (h | ⟨_, cd, hcd, _⟩)
          · exact Or.inl h
          · rw [hfn] at hcd
            exact Option.noConfusion hcd
        · rintro (h | ⟨_, cd, hcd, _⟩)
          · exact Or.inl h
          · rw [hfn] at hcd
            exact Option.noConfusion hcd
      · have hfn : fetchCard store r n = some cd := by rw [← hen]; exact hf
        change n ∈ (if cd.colorIdentity.all (fun color => ci.contains color) then
            colorViolationsGo store r ci rest acc
          else colorViolationsGo store r ci rest (addToSet acc e.name)) ↔ _
        by_cases hall : cd.colorIdentity.all (fun color => ci.contains color) = true
        · rw [hall]
          simp only [if_true]
          rw [ih, hmemcons]
          constructor
          · rintro (h | ⟨_, cd2, hcd2, hf2⟩)
            · exact Or.inl h
            · rw [hfn] at hcd2
              obtain rfl : cd = cd2 := Option.some.inj hcd2
              rw [hall] at hf2
              exact Bool.noConfusion hf2
          · rintro (h | ⟨_, cd2, hcd2, hf2⟩)
            · exact Or.inl h
            · rw [hfn] at hcd2
              obtain rfl : cd = cd2 := Option.some.inj hcd2
              rw [hall] at hf2
              exact Bool.noConfusion hf2
        · have hallf : cd.colorIdentity.all (fun color => ci.contains color) = false :=
            Bool.eq_false_iff.mpr hall
          rw [hallf]
          simp only [Bool.false_eq_true, if_false]
          rw [ih, hmemcons]
          constructor
          · intro _
            exact Or.inr ⟨Or.inl hen, cd, hfn, hallf⟩
          · intro _
            left
            exact mem_addToSet.mpr (Or.inr hen.symm)
    · rcases hf : fetchCard store r e.name with _ | cd
      · rw [ih, hmemcons]
        constructor
        · rintro (h | ⟨hx, hcd⟩)
          · exact Or.inl h
          · exact Or.inr ⟨Or.inr hx, hcd⟩
        · rintro (h | ⟨hx, hcd⟩)
          · exact Or.inl h
          · rcases hx with hx | hx
            · exact absurd hx hen
            · exact Or.inr ⟨hx, hcd⟩
      · change n ∈ (if cd.colorIdentity.all (fun color => ci.contains color) then
            colorViolationsGo store r ci rest acc
          else colorViolationsGo store r ci rest (addToSet acc e.name)) ↔ _
        by_cases hall : cd.colorIdentity.all (fun color => ci.contains color) = true
        · rw [hall]
          simp only [if_true]
          rw [ih, hmemcons]
          constructor
          · rintro (h | ⟨hx, hcd⟩)
            · exact Or.inl h
            · exact Or.inr ⟨Or.inr hx, hcd⟩
          · rintro (h | ⟨hx, hcd⟩)
            · exact Or.inl h
            · rcases hx with hx | hx
              · exact absurd hx hen
              · exact Or.inr ⟨hx, hcd⟩
        · have hallf : cd.colorIdentity.all (fun color => ci.contains color) = false :=
            Bool.eq_false_iff.mpr hall
          rw [hallf]
          simp only [Bool.false_eq_true, if_false]
          rw [ih, hmemcons]
          have hadd : n ∈ addToSet acc e.name ↔ n ∈ acc := by
            rw [mem_addToSet]
            constructor
            · rintro (h | h)
              · exact h
              · exact absurd h.symm hen
            · exact Or.inl
          rw [hadd]
          constructor
          · rintro (h | ⟨hx, hcd⟩)
            · exact Or.inl h
            · exact Or.inr ⟨Or.inr hx, hcd⟩
          · rintro (h | ⟨hx, hcd⟩)
            · exact Or.inl h
            · rcases hx with hx | hx
              · exact absurd hx hen
              · exact Or.inr ⟨hx, hcd⟩


/-- C5: in a produced verdict, every main-deck entry whose resolved card has
a color identity not contained in the resolved commander card's identity has
its name in `colorIdentityViolations`, and an entry whose resolved identity is
the empty set is never in `colorIdentityViolations`. -/
theorem color_identity_subset_violations (store : List Card) (r : Rules)
    (cards : List DeckEntry) (commander : DeckEntry) (v : LegalityResponse)
    (c : Card) (hok : evaluateDeckLegality store r cards commander = .ok v)
    (hc : fetchCard store r commander.name = some c)
    (e : DeckEntry) (he : e ∈ cards) (cd : Card)
    (hcd : fetchCard store r e.name = some cd) :
    ((¬ ∀ color ∈ cd.colorIdentity, color ∈ c.colorIdentity) →
        e.name ∈ v.colorIdentityViolations) ∧
    (cd.colorIdentity = [] → e.name ∉ v.colorIdentityViolations) := by
  obtain ⟨c2, hc2, _, _, hv⟩ := evaluateDeckLegality_ok_iff.mp hok
  obtain rfl : c = c2 := by
    rw [hc] at hc2
    exact Option.some.inj hc2
  subst hv
  have hviol : (buildVerdict store r cards commander c).colorIdentityViolations =
      colorViolationsGo store r c.colorIdentity cards [] := rfl
  rw [hviol]
  constructor
  · intro hnot
    apply (mem_colorViolationsGo store r c.colorIdentity e.name cards []).mpr
    refine Or.inr ⟨⟨e, he, rfl⟩, cd, hcd, ?_⟩
    rw [Bool.eq_false_iff]
    intro hall
    apply hnot
    intro color hcol
    have hcont := List.all_eq_true.mp hall color hcol
    exact (contains_iff_mem_str _ _).mp hcont
  · intro hnil hmem
    rcases (mem_colorViolationsGo store r c.colorIdentity e.name cards []).mp hmem with
      h | ⟨_, cd2, hcd2, hf2⟩
    · exact absurd h (List.not_mem_nil _)
    · rw [hcd] at hcd2
      obtain rfl : cd = cd2 := Option.some.inj hcd2
      rw [hnil] at hf2
      simp at hf2

/-- Witness for C5: "Island" (identity {U}) under commander "Elesh Norn"
(identity {W}) is reported as a color-identity violation. -/
theorem color_identity_subset_violations_witness :
    ((¬ ∀ color ∈ (["U"] : List String), color ∈ (["W"] : List String)) →
        "Island" ∈ (okVerdict (evaluateDeckLegality exStore exRules
          [{ quantity := 1, name := "Island" }]
          { quantity := 1, name := "Elesh Norn" })).colorIdentityViolations) ∧
    ((["U"] : List String) = [] →
        "Island" ∉ (okVerdict (evaluateDeckLegality exStore exRules
          [{ quantity := 1, name := "Island" }]
          { quantity := 1, name := "Elesh Norn" })).colorIdentityViolations) :=
  color_identity_subset_violations exStore exRules
    [{ quantity := 1, name := "Island" }] { quantity := 1, name := "Elesh Norn" }
    (okVerdict (evaluateDeckLegality exStore exRules
      [{ quantity := 1, name := "Island" }] { quantity := 1, name := "Elesh Norn" }))
    { name := "Elesh Norn", typeLine := "Legendary Creature - Praetor"
      colorIdentity := ["W"], pioneer := "legal", layout := "normal", faces := [] }
    rfl rfl { quantity := 1, name := "Island" } (by decide)
    { name := "Island", typeLine := "Basic Land — Island"
      colorIdentity := ["U"], pioneer := "legal", layout := "normal", faces := [] }
    rfl


/-! ## Card-resolution lemmas -/

/-- `findRealCard` written without its `let` binding (definitionally equal). -/
lemma findRealCard_eq (store : List Card) (n : String) :
    findRealCard store n =
      (if (store.filter (fun c => c.name == n)).length > 1 then
        ((store.filter (fun c => c.name == n)).filter (fun c => !isToken c)).head?
      else
        match (store.filter (fun c => c.name == n)).head? with
        | some card => if !isToken card then some card else none
        | none => none) := rfl

lemma findRealCard_none_of (store : List Card) (n : String)
    (h : ∀ c ∈ store, c.name ≠ n) : findRealCard store n = none := by
  have hnil : store.filter (fun c => c.name == n) = [] := by
    rw [List.filter_eq_nil_iff]
    intro c hc
    simpa using h c hc
  rw [findRealCard_eq, hnil]
  simp

lemma findRealCard_some_of (store : List Card) (dfc : Card)
    (hmem : dfc ∈ store) (htok : isToken dfc = false) :
    ∃ c, findRealCard store dfc.name = some c ∧ c.name = dfc.name := by
  rw [findRealCard_eq]
  have hdin : dfc ∈ store.filter (fun c => c.name == dfc.name) :=
    List.mem_filter.mpr ⟨hmem, by simp⟩
  by_cases hlen : (store.filter (fun c => c.name == dfc.name)).length > 1
  · rw [if_pos hlen]
    have hdnt : dfc ∈ (store.filter (fun c => c.name == dfc.name)).filter
        (fun c => !isToken c) :=
      List.mem_filter.mpr ⟨hdin, by simp [htok]⟩
    rcases hnt : (store.filter (fun c => c.name == dfc.name)).filter
        (fun c => !isToken c) with _ | ⟨c, t⟩
    · rw [hnt] at hdnt
      exact absurd hdnt (List.not_mem_nil _)
    · rw [hnt]
      refine ⟨c, rfl, ?_⟩
      have hcm : c ∈ (store.filter (fun c => c.name == dfc.name)).filter
          (fun c => !isToken c) := by
        rw [hnt]
        exact List.mem_cons_self c t
      have hcmatch := (List.mem_filter.mp hcm).1
      have := (List.mem_filter.mp hcmatch).2
      simpa using this
  · rw [if_neg hlen]
    rcases hm : (store.filter (fun c => c.name == dfc.name)) with _ | ⟨c, t⟩
    · rw [hm] at hdin
      exact absurd hdin (List.not_mem_nil _)
    · have ht : t = [] := by
        rw [hm] at hlen
        rcases t with _ | ⟨x, t2⟩
        · rfl
        · exact absurd (by simp) hlen
      subst ht
      rw [hm] at hdin
      obtain rfl : dfc = c := List.mem_singleton.mp hdin
      rw [hm]
      refine ⟨dfc, ?_, rfl⟩
      simp [htok]

/-- C6: a deck-entry name with no direct name match in the store that equals a
face name of a stored double-faced card (the first face match, as
`findDFCCard` finds it) whose owning record is not a token resolves to the
owning card's primary name: resolution succeeds with that card's identity and
legality instead of failing as not-found. -/
theorem dfc_resolution_via_owner (store : List Card) (r : Rules) (n : String)
    (dfc : Card) (hnone : ∀ c ∈ store, c.name ≠ n)
    (hdfc : findDFCCard store n = some dfc)
    (htok : isToken dfc = false) :
    ∃ c, resolveCard store r n = some c ∧ c.name = dfc.name ∧
      resolveCard store r n = getCardWithLegality store r dfc.name := by
  have hmem : dfc ∈ store := List.mem_of_find?_eq_some hdfc
  obtain ⟨c0, hfr, hname⟩ := findRealCard_some_of store dfc hmem htok
  have hdirect : findRealCard store n = none := findRealCard_none_of store n hnone
  have hget : getCardWithLegality store r n = none := by
    unfold getCardWithLegality
    rw [hdirect]
  have hgetd : getCardWithLegality store r dfc.name =
      some { c0 with
        pioneer := if isCardLegal r dfc.name (some c0) then "legal" else "not_legal" } := by
    unfold getCardWithLegality
    rw [hfr]
  have hres : resolveCard store r n = getCardWithLegality store r dfc.name := by
    unfold resolveCard
    rw [hget, hdfc]
    simp [htok]
  refine ⟨{ c0 with
      pioneer := if isCardLegal r dfc.name (some c0) then "legal" else "not_legal" },
    ?_, hname, hres⟩
  rw [hres, hgetd]

/-- Witness for C6: the entry "Front" resolves through the stored
"Front // Back" card. -/
theorem dfc_resolution_via_owner_witness :
    ∃ c, resolveCard exStore exRules "Front" = some c ∧ c.name = "Front // Back" ∧
      resolveCard exStore exRules "Front" =
        getCardWithLegality exStore exRules "Front // Back" :=
  dfc_resolution_via_owner exStore exRules "Front" exDFC (by decide) rfl rfl


/-! ## Parser lemmas -/

/-- `parseLine` written without its `let` bindings (definitionally equal). -/
lemma parseLine_eq (line : String) :
    parseLine line =
      (match parseIntJS ((jsSplit line ' ').headD "") with
       | none => none
       | some quantity =>
         if quantity < 1 then none
         else some { quantity := quantity.toNat
                     name := joinSpace (jsSplit line ' ').tail }) := rfl

lemma parseLine_none_iff (line : String) :
    parseLine line = none ↔ validQuantityLine line = false := by
  rw [parseLine_eq]
  unfold validQuantityLine leadingToken
  cases h : parseIntJS ((jsSplit line ' ').headD "") with
  | none => simp
  | some q =>
    by_cases hq : q < 1
    · have : ¬ (1 ≤ q) := by omega
      simp [hq, this]
    · have : (1 ≤ q) := by omega
      simp [hq, this]

lemma parseMainDeck_none_iff (lines : List String) :
    parseMainDeck lines = none ↔ ∃ l ∈ lines, parseLine l = none := by
  induction lines with
  | nil => simp [parseMainDeck]
  | cons l rest ih =>
    show (match parseLine l with
      | none => none
      | some e =>
        match parseMainDeck rest with
        | none => none
        | some es => some (e :: es)) = none ↔ _
    cases hl : parseLine l with
    | none =>
      simp only []
      exact iff_of_true (by trivial) ⟨l, List.mem_cons_self l rest, hl⟩
    | some e =>
      cases hrest : parseMainDeck rest with
      | none =>
        simp only []
        obtain ⟨l2, hl2, hl2n⟩ := ih.mp hrest
        exact iff_of_true (by trivial) ⟨l2, List.mem_cons_of_mem l hl2, hl2n⟩
      | some es =>
        simp only []
        constructor
        · intro h
          exact Option.noConfusion h
        · rintro ⟨l2, hl2, hl2n⟩
          rcases List.mem_cons.mp hl2 with rfl | hl2r
          · rw [hl] at hl2n
            exact Option.noConfusion hl2n
          · have := ih.mpr ⟨l2, hl2r, hl2n⟩
            rw [hrest] at this
            exact Option.noConfusion this

/-- `parseDeckList` written without its `let` bindings (definitionally
equal). -/
lemma parseDeckList_eq (s : String) :
    parseDeckList s =
      (match (jsSplit s '\n').findIdx? (fun line => jsTrim line == "") with
       | none => none
       | some commanderIndex =>
         if jsTrim ((jsSplit s '\n').getD (commanderIndex + 1) "") == "" then none
         else
           match parseLine (jsTrim ((jsSplit s '\n').getD (commanderIndex + 1) "")) with
           | none => none
           | some commander =>
             match parseMainDeck ((jsSplit s '\n').take commanderIndex) with
             | none => none
             | some mainDeck => some { mainDeck := mainDeck, commander := commander }) := rfl

/-- C7 counterexample: a main-deck line with a leading space fails to parse,
while the same deck list with the line trimmed parses — so lines are not
trimmed before the quantity token is extracted, refuting the claim. -/
theorem parseDeckList_untrimmed_main_line_fails :
    parseDeckList " 1 Island\n\n1 Elesh Norn" = none ∧
    parseDeckList "1 Island\n\n1 Elesh Norn" =
      some { mainDeck := [{ quantity := 1, name := "Island" }]
             commander := { quantity := 1, name := "Elesh Norn" } } ∧
    jsTrim " 1 Island" = "1 Island" :=
  ⟨rfl, rfl, rfl⟩

/-- C7 as amended: `parseDeckList` fails exactly when no line trims to empty
(no separator), or the line after the first such line is absent or trims to
empty (no commander), or the trimmed commander line's leading token does not
parse as an integer at least 1, or some main-deck line — taken untrimmed —
has a leading space-delimited token that does not parse as an integer at
least 1.  Only the commander line is trimmed before its quantity token is
extracted; main-deck lines are split as they stand. -/
theorem parseDeckList_failure_characterization (s : String) :
    parseDeckList s = none ↔
      (match (jsSplit s '\n').findIdx? (fun line => jsTrim line == "") with
       | none => True
       | some i =>
         jsTrim ((jsSplit s '\n').getD (i + 1) "") = "" ∨
         validQuantityLine (jsTrim ((jsSplit s '\n').getD (i + 1) "")) = false ∨
         ∃ l ∈ (jsSplit s '\n').take i, validQuantityLine l = false) := by
  rw [parseDeckList_eq]
  cases hidx : (jsSplit s '\n').findIdx? (fun line => jsTrim line == "") with
  | none => simp
  | some i =>
    simp only []
    by_cases hcl : jsTrim ((jsSplit s '\n').getD (i + 1) "") = ""
    · rw [if_pos (by simp only [beq_iff_eq]; exact hcl)]
      exact iff_of_true (by trivial) (Or.inl hcl)
    · rw [if_neg (by simp only [beq_iff_eq]; exact hcl)]
      cases hpc : parseLine (jsTrim ((jsSplit s '\n').getD (i + 1) "")) with
      | none =>
        simp only []
        exact iff_of_true (by trivial) (Or.inr (Or.inl ((parseLine_none_iff _).mp hpc)))
      | some commander =>
        have hv : validQuantityLine (jsTrim ((jsSplit s '\n').getD (i + 1) "")) ≠ false := by
          intro hf
          have := (parseLine_none_iff _).mpr hf
          rw [hpc] at this
          exact Option.noConfusion this
        cases hpm : parseMainDeck ((jsSplit s '\n').take i) with
        | none =>
          simp only []
          obtain ⟨l, hl, hln⟩ := (parseMainDeck_none_iff _).mp hpm
          exact iff_of_true (by trivial)
            (Or.inr (Or.inr ⟨l, hl, (parseLine_none_iff l).mp hln⟩))
        | some mainDeck =>
          simp only []
          constructor
          · intro h
            exact Option.noConfusion h
          · rintro (h | h | ⟨l, hl, hlv⟩)
            · exact absurd h hcl
            · exact absurd h hv
            · have := (parseMainDeck_none_iff _).mpr
                ⟨l, hl, (parseLine_none_iff l).mpr hlv⟩
              rw [hpm] at this
              exact Option.noConfusion this


/-! ## Bracket-classifier lemmas -/

lemma analyzeDeckForBracket_minimumBracket (cards : List String) (p? : Option Nat) :
    (analyzeDeckForBracket cards p?).minimumBracket =
      (bracketLoop (analysisCounts (cards.map jsToLower)) bracketTable []).1 := by
  cases p? <;> rfl

lemma analyzeDeckForBracket_failed (cards : List String) (p? : Option Nat) :
    (analyzeDeckForBracket cards p?).details.bracketRequirementsFailed =
      (bracketLoop (analysisCounts (cards.map jsToLower)) bracketTable []).2 := by
  cases p? <;> rfl

lemma bracketFailures_bracket4 (c : CategoryCounts) :
    bracketFailures c (4, bracket4Req) = [] := by
  simp [bracketFailures, bracket4Req, exceedsMax]

lemma bracketLoop_spec (c : CategoryCounts) (tbl : List (Nat × BracketRequirements)) :
    ∀ (acc : List String) (pr : Nat × BracketRequirements),
      tbl.find? (fun q => (bracketFailures c q).isEmpty) = some pr →
      bracketLoop c tbl acc =
        (pr.1, acc ++ (tbl.takeWhile (fun q =>
          !(bracketFailures c q).isEmpty)).flatMap (fun q => bracketFailures c q)) := by
  induction tbl with
  | nil =>
    intro acc pr h
    exact absurd h (by simp)
  | cons q rest ih =>
    intro acc pr h
    by_cases hq : (bracketFailures c q).isEmpty = true
    · simp only [List.find?_cons, hq] at h
      obtain rfl : q = pr := Option.some.inj h
      show (if (bracketFailures c q).isEmpty then (q.1, acc)
        else bracketLoop c rest (acc ++ bracketFailures c q)) = _
      rw [if_pos hq]
      rw [show List.takeWhile (fun q => !(bracketFailures c q).isEmpty) (q :: rest) = [] from by
        simp [List.takeWhile_cons, hq]]
      simp
    · have hqf : (bracketFailures c q).isEmpty = false := Bool.eq_false_iff.mpr hq
      simp only [List.find?_cons, hqf] at h
      show (if (bracketFailures c q).isEmpty then (q.1, acc)
        else bracketLoop c rest (acc ++ bracketFailures c q)) = _
      rw [if_neg (by simp [hqf]), ih (acc ++ bracketFailures c q) pr h]
      rw [show List.takeWhile (fun q => !(bracketFailures c q).isEmpty) (q :: rest) =
          q :: List.takeWhile (fun q => !(bracketFailures c q).isEmpty) rest from by
        simp [List.takeWhile_cons, hqf]]
      simp


lemma ne_nil_of_isEmpty_false {l : List String} (h : l.isEmpty = false) : l ≠ [] := by
  intro hnil
  subst hnil
  simp at h

/-- C8: the classifier walks the bracket requirement table in increasing
order: `minimumBracket` is the number of the first bracket whose failure list
is empty, every lower-numbered bracket has a non-empty failure list, and
`bracketRequirementsFailed` is the concatenation of the failure messages of
all rejected (lower) brackets.  In particular a deck holding exactly one
tutor-catalog card (and nothing from any other category) gets minimum
bracket 1, since bracket 1 allows up to 2 tutors. -/
theorem minimum_bracket_first_passing (cards : List String) (p? : Option Nat) :
    (∃ pr, bracketTable.find? (fun q =>
        (bracketFailures (analysisCounts (cards.map jsToLower)) q).isEmpty) = some pr ∧
      (analyzeDeckForBracket cards p?).minimumBracket = pr.1 ∧
      (∀ q ∈ bracketTable, q.1 < pr.1 →
        bracketFailures (analysisCounts (cards.map jsToLower)) q ≠ []) ∧
      (analyzeDeckForBracket cards p?).details.bracketRequirementsFailed =
        (bracketTable.takeWhile (fun q =>
          !(bracketFailures (analysisCounts (cards.map jsToLower)) q).isEmpty)).flatMap
          (fun q => bracketFailures (analysisCounts (cards.map jsToLower)) q)) ∧
    (analyzeDeckForBracket ["diabolic tutor"] none).minimumBracket = 1 := by
  constructor
  · obtain ⟨pr, hfind, hlt⟩ : ∃ pr, bracketTable.find? (fun q =>
        (bracketFailures (analysisCounts (cards.map jsToLower)) q).isEmpty) = some pr ∧
        (∀ q ∈ bracketTable, q.1 < pr.1 →
          bracketFailures (analysisCounts (cards.map jsToLower)) q ≠ []) := by
      by_cases h1 : (bracketFailures (analysisCounts (cards.map jsToLower))
          (1, bracket1Req)).isEmpty = true
      · refine ⟨(1, bracket1Req), by simp [bracketTable, List.find?_cons, h1], ?_⟩
        intro q hq hqlt
        simp only [bracketTable, List.mem_cons, List.mem_singleton,
          List.not_mem_nil, or_false] at hq
        rcases hq with rfl | rfl | rfl | rfl <;> simp at hqlt
      · have h1f := Bool.eq_false_iff.mpr h1
        by_cases h2 : (bracketFailures (analysisCounts (cards.map jsToLower))
            (2, bracket2Req)).isEmpty = true
        · refine ⟨(2, bracket2Req),
            by simp [bracketTable, List.find?_cons, h1f, h2], ?_⟩
          intro q hq hqlt
          simp only [bracketTable, List.mem_cons, List.mem_singleton,
            List.not_mem_nil, or_false] at hq
          rcases hq with rfl | rfl | rfl | rfl
          · exact ne_nil_of_isEmpty_false h1f
          all_goals simp at hqlt
        · have h2f := Bool.eq_false_iff.mpr h2
          by_cases h3 : (bracketFailures (analysisCounts (cards.map jsToLower))
              (3, bracket3Req)).isEmpty = true
          · refine ⟨(3, bracket3Req),
              by simp [bracketTable, List.find?_cons, h1f, h2f, h3], ?_⟩
            intro q hq hqlt
            simp only [bracketTable, List.mem_cons, List.mem_singleton,
              List.not_mem_nil, or_false] at hq
            rcases hq with rfl | rfl | rfl | rfl
            · exact ne_nil_of_isEmpty_false h1f
            · exact ne_nil_of_isEmpty_false h2f
            all_goals simp at hqlt
          · have h3f := Bool.eq_false_iff.mpr h3
            have h4 : (bracketFailures (analysisCounts (cards.map jsToLower))
                (4, bracket4Req)).isEmpty = true := by
              rw [bracketFailures_bracket4]
              rfl
            refine ⟨(4, bracket4Req),
              by simp [bracketTable, List.find?_cons, h1f, h2f, h3f, h4], ?_⟩
            intro q hq hqlt
            simp only [bracketTable, List.mem_cons, List.mem_singleton,
              List.not_mem_nil, or_false] at hq
            rcases hq with rfl | rfl | rfl | rfl
            · exact ne_nil_of_isEmpty_false h1f
            · exact ne_nil_of_isEmpty_false h2f
            · exact ne_nil_of_isEmpty_false h3f
            · simp at hqlt
    refine ⟨pr, hfind, ?_, hlt, ?_⟩
    · rw [analyzeDeckForBracket_minimumBracket,
        bracketLoop_spec (analysisCounts (cards.map jsToLower)) bracketTable [] pr hfind]
    · rw [analyzeDeckForBracket_failed,
        bracketLoop_spec (analysisCounts (cards.map jsToLower)) bracketTable [] pr hfind]
      simp
  · rfl


/-- C9 counterexample: duplicating "zealous conscripts" changes the
`twoCardCombos` field — combo detection pairs positions, not distinct names,
so it does not de-duplicate. -/
theorem combo_detection_not_duplicate_invariant :
    (analyzeDeckForBracket
      ["kiki-jiki, mirror breaker", "zealous conscripts", "zealous conscripts"]
      none).twoCardCombos ≠
    (analyzeDeckForBracket
      ["kiki-jiki, mirror breaker", "zealous conscripts"] none).twoCardCombos := by
  decide

/-- C9 as amended: two-card combo detection iterates over every index pair
`i < j` of the input list without de-duplication, so adding a duplicate
occurrence of a name already present can add a duplicate combo entry: the
pair list `[kiki-jiki, zealous conscripts]` yields one combo entry, and
appending a second "zealous conscripts" yields the same entry twice.
In general the `twoCardCombos` field is exactly the index-pair scan of the
lowercased input. -/
theorem duplicate_names_add_combo_entries :
    (analyzeDeckForBracket ["kiki-jiki, mirror breaker", "zealous conscripts"]
        none).twoCardCombos =
      [{ cards := ["kiki-jiki, mirror breaker", "zealous conscripts"]
         isEarlyGame := false }] ∧
    (analyzeDeckForBracket
        ["kiki-jiki, mirror breaker", "zealous conscripts", "zealous conscripts"]
        none).twoCardCombos =
      [{ cards := ["kiki-jiki, mirror breaker", "zealous conscripts"]
         isEarlyGame := false },
       { cards := ["kiki-jiki, mirror breaker", "zealous conscripts"]
         isEarlyGame := false }] ∧
    ∀ (cards : List String) (p? : Option Nat),
      (analyzeDeckForBracket cards p?).twoCardCombos =
        comboScan (cards.map jsToLower) := by
  refine ⟨rfl, rfl, ?_⟩
  intro cards p?
  cases p? <;> rfl

end LegalityChecker
